import Mathlib

/-!
# Verification of the chargecode-automation extraction core

Shallow embedding of the task/time extraction and chargecode-resolution
engine of `src/workflow.py`:

* `parse_decimal_words` (lines 55-75): the lexical number parser,
* the date extractor inside `parse_tasks` (lines 91-114),
* the task/hours tokenizer inside `parse_tasks` (lines 116-133),
* `map_to_chargecodes` (lines 140-189): chargecode resolution via
  rapidfuzz `token_set_ratio` / `process.extractOne` and the daily-hours
  rescaling post-pass.

Python floats are modelled by exact rationals (`ℚ`); Python `int()`
truncation is `pyTrunc`.  The regular expressions of the source are
embedded as character-level scanners with the exact leftmost-match and
ordered-alternation/backtracking semantics of `re.search`, `re.findall`
and `re.sub` (checked against CPython on the inputs used below).
`datetime.strptime` is embedded per format with CPython's `_strptime`
digit patterns and whitespace handling, followed by calendar validation.
-/

/-- Errors of the embedded Python code.  `valueError` is the
`ValueError("Please enter a date in valid date formats")` raised at
`workflow.py` line 114; `typeError` is the `TypeError` raised by unpacking
the `None` that `rapidfuzz.process.extractOne` returns for an empty choices
list (line 164); `zeroDivisionError` is the uncaught float division by zero
at line 185.  The constructors `emptyCatalogError` and
`degenerateInputError` are the typed errors the specification prescribes;
the code never raises them, and they exist here only so that statements can
compare the code's behaviour with the specified one. -/
inductive PyError where
  | valueError
  | typeError
  | zeroDivisionError
  | emptyCatalogError
  | degenerateInputError
  deriving DecidableEq, Repr

/-- Python's `int()` on a float truncates toward zero (`workflow.py`
line 187: `int((entry["hours"] * scaling_factor) * 100)`). -/
def pyTrunc (q : ℚ) : ℤ := if 0 ≤ q then ⌊q⌋ else ⌈q⌉

/-- The daily-hours rescaling post-pass of `map_to_chargecodes`
(`workflow.py` lines 182-188), applied to the `hours` fields of the mapped
entries: if the sum is not exactly `8.0` the code computes
`scaling_factor = 8.0 / hours_till_now` (raising `ZeroDivisionError` when
the sum is zero) and replaces each entry's hours by
`int(hours * scaling_factor * 100) / 100`. -/
def scaleHours (hs : List ℚ) : Except PyError (List ℚ) :=
  if hs.sum = 8 then .ok hs
  else if hs.sum = 0 then .error .zeroDivisionError
  else .ok (hs.map (fun h => (pyTrunc (h * (8 / hs.sum) * 100) : ℚ) / 100))

/-! ## Characters and strings -/

/-- Python's `\s` class restricted to ASCII (all inputs here are ASCII). -/
def isWsChar (c : Char) : Bool :=
  c = ' ' || c = '\t' || c = '\n' || c = '\r' || c = '\x0b' || c = '\x0c'

/-- Python's `\w` class restricted to ASCII. -/
def isWordChar (c : Char) : Bool := c.isAlphanum || c = '_'

def lowerChars (l : List Char) : List Char := l.map Char.toLower

/-- Python `str.lower()` (ASCII). -/
def strLower (s : String) : String := ⟨lowerChars s.data⟩

/-- Python `str.strip()`. -/
def stripChars (l : List Char) : List Char :=
  ((l.dropWhile isWsChar).reverse.dropWhile isWsChar).reverse

def strStrip (s : String) : String := ⟨stripChars s.data⟩

def pyTokensAux : ℕ → List Char → List String
  | 0, _ => []
  | _ + 1, [] => []
  | fuel + 1, c :: t =>
    if isWsChar c then pyTokensAux fuel t
    else ⟨(c :: t).takeWhile (fun d => !isWsChar d)⟩ ::
      pyTokensAux fuel ((c :: t).dropWhile (fun d => !isWsChar d))

/-- Python `str.split()` with no argument: split on whitespace runs,
dropping empty pieces. -/
def pyTokens (s : String) : List String := pyTokensAux s.data.length s.data

/-- Lexicographic comparison of strings by character code, as Python's
`<` on `str` (ASCII). -/
def charListLt : List Char → List Char → Bool
  | [], [] => false
  | [], _ :: _ => true
  | _ :: _, [] => false
  | a :: as, b :: bs =>
    if a.toNat < b.toNat then true
    else if b.toNat < a.toNat then false
    else charListLt as bs

def strLt (a b : String) : Bool := charListLt a.data b.data

def insertSorted (x : String) : List String → List String
  | [] => [x]
  | y :: ys => if strLt x y then x :: y :: ys else y :: insertSorted x ys

def sortStrings : List String → List String
  | [] => []
  | x :: xs => insertSorted x (sortStrings xs)

def dedupStrings : List String → List String
  | [] => []
  | x :: xs => if xs.contains x then dedupStrings xs else x :: dedupStrings xs

/-- Python `sorted(set(s.split()))`. -/
def sortedTokenSet (s : String) : List String := sortStrings (dedupStrings (pyTokens s))

/-! ## Indel distance and rapidfuzz scoring -/

/-- One row update of the longest-common-subsequence dynamic program. -/
def lcsStep (x : Char) : List Char → List ℕ → ℕ → List ℕ
  | y :: ys, p0 :: ptail, left =>
    let up := ptail.headD 0
    let cur := if x = y then p0 + 1 else max left up
    cur :: lcsStep x ys ptail cur
  | _, _, _ => []

def lcsLen (xs ys : List Char) : ℕ :=
  (xs.foldl (fun prev x => 0 :: lcsStep x ys prev 0)
    (List.replicate (ys.length + 1) 0)).getLastD 0

/-- Indel (insertion/deletion-only edit) distance, as used by rapidfuzz's
`ratio`: `|a| + |b| - 2·lcs(a,b)`. -/
def indelDist (a b : List Char) : ℕ := a.length + b.length - 2 * lcsLen a b

/-- rapidfuzz's normalized indel similarity scaled to 0-100, in exact
rational arithmetic. -/
def indelRatioQ (a b : String) : ℚ :=
  let n := a.data.length + b.data.length
  if n = 0 then 100
  else (100 * ((n - indelDist a.data b.data : ℕ) : ℚ)) / (n : ℚ)

def joinTokens (l : List String) : String := String.intercalate " " l

/-- rapidfuzz `fuzz.token_set_ratio` (`workflow.py` line 162), with no
processor (the library default): split both strings into whitespace token
sets, and take the maximum of the indel similarities between the joined
sorted intersection, intersection + left difference, and intersection +
right difference; 0 when either token set is empty, 100 when one token set
contains the other (nonempty intersection with an empty difference).
Modelled from the rapidfuzz reference implementation, in exact rational
arithmetic. -/
def tokenSetRatioQ (s1 s2 : String) : ℚ :=
  let ta := sortedTokenSet s1
  let tb := sortedTokenSet s2
  if ta.isEmpty || tb.isEmpty then 0
  else
    let sect := ta.filter (fun w => tb.contains w)
    let ab := ta.filter (fun w => !tb.contains w)
    let ba := tb.filter (fun w => !ta.contains w)
    if !sect.isEmpty && (ab.isEmpty || ba.isEmpty) then 100
    else
      let sJ := joinTokens sect
      let sabJ := joinTokens (sect ++ ab)
      let sbaJ := joinTokens (sect ++ ba)
      max (max (indelRatioQ sJ sabJ) (indelRatioQ sJ sbaJ)) (indelRatioQ sabJ sbaJ)

/-- rapidfuzz `process.extractOne` (`workflow.py` line 162): returns
`(choice, score, index)` for the choice with the maximal score, the first
such choice on ties ("if multiple elements have the same score the first
one is returned"), and `None` for an empty choices list. -/
def extractOne (f : String → ℚ) : List String → Option (String × ℚ × ℕ)
  | [] => none
  | c :: cs =>
    match extractOne f cs with
    | none => some (c, f c, 0)
    | some (b, s, i) => if f c < s then some (b, s, i + 1) else some (c, f c, 0)

/-! ## Records -/

/-- A raw (task, hours) mention, as produced by `parse_tasks`
(`workflow.py` line 131: `{"task": ..., "hours": ...}`). -/
structure RawTask where
  task : String
  hours : ℚ
  deriving DecidableEq, Repr

/-- One row of the reference catalog; the resolver reads the
`"Description"` and `"WBS element"` columns only (`workflow.py` lines 155
and 169; the `"Note"` column is dead code in the latest revision). -/
structure RefEntry where
  description : String
  wbs : String
  deriving DecidableEq, Repr

/-- One resolved entry, as appended by `map_to_chargecodes`
(`workflow.py` lines 171-177). -/
structure Mapped where
  date : Option String
  chargecode_id : String
  hours : ℚ
  matched_with : String
  score : ℚ
  deriving DecidableEq, Repr

/-- The resolution step for a single task (`workflow.py` lines 157-177):
strip the task text, run `process.extractOne` over the catalog
descriptions with `fuzz.token_set_ratio`, and build the mapped entry.  On
an empty catalog `extractOne` returns `None` and the unpacking at line 164
raises `TypeError`. -/
def resolveOne (cat : List RefEntry) (date : Option String) (t : RawTask) :
    Except PyError Mapped :=
  match extractOne (fun d => tokenSetRatioQ (strStrip t.task) d)
      (cat.map (fun r => r.description)) with
  | none => .error .typeError
  | some (m, s, i) =>
    .ok { date := date, chargecode_id := (cat.getD i ⟨"", ""⟩).wbs,
          hours := t.hours, matched_with := m, score := s }

def resolveAll (cat : List RefEntry) (date : Option String) :
    List RawTask → Except PyError (List Mapped)
  | [] => .ok []
  | t :: ts =>
    match resolveOne cat date t with
    | .error e => .error e
    | .ok m =>
      match resolveAll cat date ts with
      | .error e => .error e
      | .ok ms => .ok (m :: ms)

/-- `map_to_chargecodes` (`workflow.py` lines 140-189): resolve every task
in order, then rescale all hours so they sum to 8 (see `scaleHours`). -/
def mapToChargecodes (tasks : List RawTask) (date : Option String)
    (cat : List RefEntry) : Except PyError (List Mapped) :=
  match resolveAll cat date tasks with
  | .error e => .error e
  | .ok mapped =>
    let S := (mapped.map (fun m => m.hours)).sum
    if S = 8 then .ok mapped
    else if S = 0 then .error .zeroDivisionError
    else .ok (mapped.map (fun m =>
      { m with hours := (pyTrunc (m.hours * (8 / S) * 100) : ℚ) / 100 }))

/-- The two-row catalog of Scenario 2 of the specification. -/
def scenario2Cat : List RefEntry :=
  [{ description := "Data Analysis", wbs := "WBS-100" },
   { description := "Client Calls", wbs := "WBS-200" }]

/-! ## The lexical number parser (`parse_decimal_words`) -/

/-- `word_to_num` of `workflow.py` lines 80-84 (insertion order). -/
def wordToNum : List (String × ℕ) :=
  [("zero", 0), ("one", 1), ("two", 2), ("three", 3), ("four", 4),
   ("five", 5), ("six", 6), ("seven", 7), ("eight", 8), ("nine", 9),
   ("ten", 10)]

/-- The first digit-word alternation of the decimal regex
(`workflow.py` line 60), in source order. -/
def digitWords1 : List (String × ℕ) :=
  [("two", 2), ("five", 5), ("seven", 7), ("zero", 0), ("one", 1),
   ("three", 3), ("four", 4), ("six", 6), ("eight", 8), ("nine", 9)]

/-- The second digit-word alternation of the decimal regex, in source
order. -/
def digitWords2 : List (String × ℕ) :=
  [("five", 5), ("two", 2), ("zero", 0), ("one", 1), ("three", 3),
   ("four", 4), ("six", 6), ("seven", 7), ("eight", 8), ("nine", 9)]

/-- Match a literal character sequence at the head of the input. -/
def litAt : List Char → List Char → Option (List Char)
  | [], t => some t
  | _, [] => none
  | l :: ls, c :: cs => if c = l then litAt ls cs else none

/-- Match the first word of an alternation at the head of the input
(ordered alternation; no word in any alternation used here is a prefix of
another, so at most one alternative matches). -/
def wordValAt (words : List (String × ℕ)) : List Char → Option (ℕ × List Char)
  | t =>
    match words with
    | [] => none
    | (w, v) :: ws =>
      match litAt w.data t with
      | some rest => some (v, rest)
      | none => wordValAt ws t

def wordAt (words : List String) : List Char → Option (String × List Char)
  | t =>
    match words with
    | [] => none
    | w :: ws =>
      match litAt w.data t with
      | some rest => some (w, rest)
      | none => wordAt ws t

/-- `\s+`: require at least one whitespace character, consume the run. -/
def wsPlus (t : List Char) : Option (List Char) :=
  match t with
  | c :: rest => if isWsChar c then some (rest.dropWhile isWsChar) else none
  | [] => none

def firstSome {α β : Type} (f : α → Option β) : List α → Option β
  | [] => none
  | a :: as =>
    match f a with
    | some b => some b
    | none => firstSome f as

/-- Continuations of the decimal regex's optional
`(?:another\s+)?(?:(whole)?\s*)?` part, in the backtracking order of
`re`: with `another` before without, and with a whole-number word before
without. -/
def decimalStarts (t : List Char) : List (Option ℕ × List Char) :=
  let base (u : List Char) : List (Option ℕ × List Char) :=
    match wordValAt wordToNum u with
    | some (v, r) => [(some v, r.dropWhile isWsChar), (none, u.dropWhile isWsChar)]
    | none => [(none, u.dropWhile isWsChar)]
  match litAt "another".data t with
  | some r =>
    match wsPlus r with
    | some r2 => base r2 ++ base t
    | none => base t
  | none => base t

/-- One attempt of the decimal-phrase regex (`workflow.py` line 60) at the
current position, returning the captured groups (whole word value, first
digit word value, optional second digit word value) and the remaining
input after the match. -/
def matchDecimalFrom (t : List Char) : Option (Option ℕ × ℕ × Option ℕ × List Char) :=
  firstSome (fun p =>
    match litAt "point".data p.2 with
    | none => none
    | some u1 =>
      match wsPlus u1 with
      | none => none
      | some u2 =>
        match wordValAt digitWords1 u2 with
        | none => none
        | some (d1, u3) =>
          match wsPlus u3 with
          | some u4 =>
            match wordValAt digitWords2 u4 with
            | some (d2, u5) => some (p.1, d1, some d2, u5)
            | none => some (p.1, d1, none, u3)
          | none => some (p.1, d1, none, u3)) (decimalStarts t)

/-- The numeric value computed by the replacement function `repl`
(`workflow.py` lines 62-73): whole + d1/10 + d2/100. -/
def replValQ (w : Option ℕ) (d1 : ℕ) (d2 : Option ℕ) : ℚ :=
  (w.getD 0 : ℚ) + (d1 : ℚ) / 10 +
    (match d2 with | some k => (k : ℚ) / 100 | none => 0)

/-- The replacement string `str(val)` produced by `repl`, modelled as the
exact short decimal form of the value.  CPython renders every one-decimal
value (second digit word absent or `zero`) exactly this way; for some
two-digit values the float sum carries a representation artifact (e.g.
`str(1/10 + 2/100)` is `"0.12000000000000001"`), a value identical to the
exact one up to one ulp.  Every concrete input appearing in the statements
below was checked to render exactly. -/
def replStr (w : Option ℕ) (d1 : ℕ) (d2 : Option ℕ) : String :=
  toString (w.getD 0) ++ "." ++ toString d1 ++
    (match d2 with
     | some k => if k = 0 then "" else toString k
     | none => "")

def decimalSubAux : ℕ → List Char → List Char
  | 0, t => t
  | _ + 1, [] => []
  | fuel + 1, c :: rest =>
    match matchDecimalFrom (c :: rest) with
    | some (w, d1, d2, rem) => (replStr w d1 d2).data ++ decimalSubAux fuel rem
    | none => c :: decimalSubAux fuel rest

/-- `parse_decimal_words` (`workflow.py` lines 55-75): `re.sub` of the
decimal-phrase pattern, replacing each (leftmost, non-overlapping) match
with the numeric string of its value. -/
def parse_decimal_words (s : String) : String := ⟨decimalSubAux s.data.length s.data⟩

/-! ## The date extractor (`parse_tasks` lines 91-114) -/

def monthNames : List (String × ℕ) :=
  [("january", 1), ("february", 2), ("march", 3), ("april", 4), ("may", 5),
   ("june", 6), ("july", 7), ("august", 8), ("september", 9),
   ("october", 10), ("november", 11), ("december", 12)]

def monthWords : List String := monthNames.map (fun p => p.1)

def charVal (c : Char) : ℕ := c.toNat - '0'.toNat

/-- Exactly `n` decimal digits. -/
def digitsExact : ℕ → List Char → Option (List Char × List Char)
  | 0, t => some ([], t)
  | _ + 1, [] => none
  | n + 1, c :: t =>
    if c.isDigit then
      match digitsExact n t with
      | some (ds, r) => some (c :: ds, r)
      | none => none
    else none

/-- `\d{1,2}` with the backtracking order of `re`: two digits before one. -/
def d12Candidates (t : List Char) : List (List Char × List Char) :=
  (match digitsExact 2 t with | some p => [p] | none => []) ++
  (match digitsExact 1 t with | some p => [p] | none => [])

def sepOk (c : Char) : Bool := c = '/' || c = '-'

/-- Date patterns 1 and 2 (`workflow.py` lines 92-93):
`(\d{1,2})[\/\-](\d{1,2})[\/\-](\d{ylen})`, matched at the current
position; returns the matched text. -/
def matchNumDateAt (ylen : ℕ) (t : List Char) : Option (List Char) :=
  firstSome (fun p1 =>
    match p1.2 with
    | s1 :: r2 =>
      if sepOk s1 then
        firstSome (fun p2 =>
          match p2.2 with
          | s2 :: r4 =>
            if sepOk s2 then
              match digitsExact ylen r4 with
              | some (ys, _) => some (p1.1 ++ s1 :: p2.1 ++ s2 :: ys)
              | none => none
            else none
          | [] => none) (d12Candidates r2)
      else none
    | [] => none) (d12Candidates t)

/-- The `\s+ (month) \s+ (\d{4})` tail shared by date patterns 4 and 5;
returns the matched text of the tail. -/
def monthYearTail (r : List Char) : Option (List Char) :=
  match r with
  | c :: _ =>
    if isWsChar c then
      let w1 := r.takeWhile isWsChar
      let r2 := r.dropWhile isWsChar
      match wordAt monthWords r2 with
      | some (mw, r3) =>
        match r3 with
        | d :: _ =>
          if isWsChar d then
            let w2 := r3.takeWhile isWsChar
            let r4 := r3.dropWhile isWsChar
            match digitsExact 4 r4 with
            | some (ys, _) => some (w1 ++ mw.data ++ w2 ++ ys)
            | none => none
          else none
        | [] => none
      | none => none
    else none
  | [] => none

/-- Date pattern 3 (`workflow.py` line 94):
`(month)\s+(\d{1,2}),?\s+(\d{4})`. -/
def matchMonthDayYearAt (t : List Char) : Option (List Char) :=
  match wordAt monthWords t with
  | none => none
  | some (mw, r1) =>
    match r1 with
    | c :: _ =>
      if isWsChar c then
        let w1 := r1.takeWhile isWsChar
        let r2 := r1.dropWhile isWsChar
        firstSome (fun p =>
          let commaCands : List (List Char × List Char) :=
            match p.2 with
            | ',' :: r4 => [([','], r4), ([], p.2)]
            | _ => [([], p.2)]
          firstSome (fun q =>
            match q.2 with
            | w :: _ =>
              if isWsChar w then
                let w2 := q.2.takeWhile isWsChar
                let r6 := q.2.dropWhile isWsChar
                match digitsExact 4 r6 with
                | some (ys, _) => some (mw.data ++ w1 ++ p.1 ++ q.1 ++ w2 ++ ys)
                | none => none
              else none
            | [] => none) commaCands) (d12Candidates r2)
      else none
    | [] => none

/-- Date pattern 4 (`workflow.py` line 95): `(\d{1,2})\s+(month)\s+(\d{4})`. -/
def matchDayMonthYearAt (t : List Char) : Option (List Char) :=
  firstSome (fun p =>
    match monthYearTail p.2 with
    | some tail => some (p.1 ++ tail)
    | none => none) (d12Candidates t)

def ordinalSuffixes : List String := ["st", "nd", "rd", "th"]

/-- Date pattern 5 (`workflow.py` line 96):
`(\d{1,2})(st|nd|rd|th)\s+(month)\s+(\d{4})`. -/
def matchOrdinalDateAt (t : List Char) : Option (List Char) :=
  firstSome (fun p =>
    match wordAt ordinalSuffixes p.2 with
    | some (suf, r2) =>
      match monthYearTail r2 with
      | some tail => some (p.1 ++ suf.data ++ tail)
      | none => none
    | none => none) (d12Candidates t)

/-- `re.search`: the leftmost position where the pattern matches. -/
def searchFirst (m : List Char → Option (List Char)) : List Char → Option (List Char)
  | [] => none
  | c :: rest =>
    match m (c :: rest) with
    | some r => some r
    | none => searchFirst m rest

def datePatterns : List (List Char → Option (List Char)) :=
  [matchNumDateAt 4, matchNumDateAt 2, matchMonthDayYearAt,
   matchDayMonthYearAt, matchOrdinalDateAt]

def findFirstAux : ℕ → List (List Char → Option (List Char)) → List Char →
    Option (ℕ × List Char)
  | _, [], _ => none
  | i, p :: ps, t =>
    match searchFirst p t with
    | some m => some (i, m)
    | none => findFirstAux (i + 1) ps t

/-- The pattern loop of `parse_tasks` (lines 100-101): the first pattern,
in priority order, with a search hit anywhere in the text, together with
its leftmost matched text. -/
def findFirstDateMatch (t : List Char) : Option (ℕ × List Char) :=
  findFirstAux 0 datePatterns t

def stripOrdinalsAux : ℕ → List Char → List Char
  | 0, t => t
  | _ + 1, [] => []
  | fuel + 1, c :: rest =>
    if c.isDigit then
      let run := (c :: rest).takeWhile Char.isDigit
      let after := (c :: rest).dropWhile Char.isDigit
      match wordAt ordinalSuffixes after with
      | some (_, r2) => run ++ stripOrdinalsAux fuel r2
      | none => run ++ stripOrdinalsAux fuel after
    else c :: stripOrdinalsAux fuel rest

/-- `re.sub(r'(\d+)(st|nd|rd|th)', r'\1', matched_text)` (`workflow.py`
line 107).  The guarding substring test at line 106 is omitted because the
substitution is the identity whenever the test fails. -/
def stripOrdinals (m : List Char) : List Char := stripOrdinalsAux m.length m

/-- CPython `_strptime` directive `%d`: `(3[01]|[12]\d|0[1-9]|[1-9])`,
candidates in alternation order. -/
def parsePctD (t : List Char) : List (ℕ × List Char) :=
  (match t with
   | '3' :: c :: r => if c = '0' || c = '1' then [(30 + charVal c, r)] else []
   | _ => []) ++
  (match t with
   | a :: c :: r =>
     if (a = '1' || a = '2') && c.isDigit then [(10 * charVal a + charVal c, r)] else []
   | _ => []) ++
  (match t with
   | '0' :: c :: r => if c.isDigit && c != '0' then [(charVal c, r)] else []
   | _ => []) ++
  (match t with
   | c :: r => if c.isDigit && c != '0' then [(charVal c, r)] else []
   | _ => [])

/-- CPython `_strptime` directive `%m`: `(1[0-2]|0[1-9]|[1-9])`. -/
def parsePctM (t : List Char) : List (ℕ × List Char) :=
  (match t with
   | '1' :: c :: r =>
     if c = '0' || c = '1' || c = '2' then [(10 + charVal c, r)] else []
   | _ => []) ++
  (match t with
   | '0' :: c :: r => if c.isDigit && c != '0' then [(charVal c, r)] else []
   | _ => []) ++
  (match t with
   | c :: r => if c.isDigit && c != '0' then [(charVal c, r)] else []
   | _ => [])

def natOfDigits (ds : List Char) : ℕ := ds.foldl (fun a c => 10 * a + charVal c) 0

/-- `%y` pivot: 00-68 map to 2000-2068, 69-99 to 1969-1999. -/
def yearAdjust (ylen v : ℕ) : ℕ :=
  if ylen = 2 then (if v ≤ 68 then 2000 + v else 1900 + v) else v

/-- `datetime.strptime(text, "%d/%m/%Y")` (or `"%d/%m/%y"` for `ylen = 2`)
up to calendar validation: the format's literal `/` matches only `/`.
Returns `(year, month, day)`; the whole input must be consumed. -/
def parseFmtDMYnum (ylen : ℕ) (t : List Char) : Option (ℕ × ℕ × ℕ) :=
  firstSome (fun p =>
    match p.2 with
    | '/' :: r2 =>
      firstSome (fun q =>
        match q.2 with
        | '/' :: r4 =>
          match digitsExact ylen r4 with
          | some (ys, []) => some (yearAdjust ylen (natOfDigits ys), q.1, p.1)
          | _ => none
        | _ => none) (parsePctM r2)
    | _ => none) (parsePctD t)

/-- `datetime.strptime(text, "%B %d %Y")` up to calendar validation
(whitespace in an `_strptime` format matches `\s+`). -/
def parseFmtBdY (t : List Char) : Option (ℕ × ℕ × ℕ) :=
  match wordValAt monthNames t with
  | some (m, r1) =>
    match wsPlus r1 with
    | some r2 =>
      firstSome (fun p =>
        match wsPlus p.2 with
        | some r4 =>
          match digitsExact 4 r4 with
          | some (ys, []) => some (natOfDigits ys, m, p.1)
          | _ => none
        | none => none) (parsePctD r2)
    | none => none
  | none => none

/-- `datetime.strptime(text, "%d %B %Y")` up to calendar validation. -/
def parseFmtDbY (t : List Char) : Option (ℕ × ℕ × ℕ) :=
  firstSome (fun p =>
    match wsPlus p.2 with
    | some r2 =>
      match wordValAt monthNames r2 with
      | some (m, r3) =>
        match wsPlus r3 with
        | some r4 =>
          match digitsExact 4 r4 with
          | some (ys, []) => some (natOfDigits ys, m, p.1)
          | _ => none
        | none => none
      | none => none
    | none => none) (parsePctD t)

def isLeapYear (y : ℕ) : Bool := y % 4 == 0 && (y % 100 != 0 || y % 400 == 0)

def daysInMonth (y m : ℕ) : ℕ :=
  if m = 2 then (if isLeapYear y then 29 else 28)
  else if m == 4 || m == 6 || m == 9 || m == 11 then 30
  else 31

/-- The `datetime` constructor's validation for the fields reachable here
(`%d` yields 1-31, `%m`/`%B` yield 1-12, `%Y` yields 0-9999): the year must
be at least `MINYEAR = 1` and the day must exist in the month. -/
def validDate (y m d : ℕ) : Bool :=
  decide (1 ≤ y) && decide (d ≤ daysInMonth y m)

def pad2 (n : ℕ) : String := if n < 10 then "0" ++ toString n else toString n

def pad4 (n : ℕ) : String :=
  if n < 10 then "000" ++ toString n
  else if n < 100 then "00" ++ toString n
  else if n < 1000 then "0" ++ toString n
  else toString n

/-- `parsed_date.strftime("%Y-%m-%d")` (`workflow.py` line 111). -/
def isoFormat (y m d : ℕ) : String := pad4 y ++ "-" ++ pad2 m ++ "-" ++ pad2 d

/-- The `try` block of `parse_tasks` lines 104-111 for the pattern with
index `i`: strip ordinal suffixes, parse the matched text with the
pattern's `strptime` format, validate the calendar date, and render it as
ISO `YYYY-MM-DD`; `none` is the `ValueError` path. -/
def validateDate (i : ℕ) (m : List Char) : Option String :=
  let m2 := stripOrdinals m
  let parsed : Option (ℕ × ℕ × ℕ) :=
    if i = 0 then parseFmtDMYnum 4 m2
    else if i = 1 then parseFmtDMYnum 2 m2
    else if i = 2 then parseFmtBdY m2
    else parseFmtDbY m2
  match parsed with
  | some (y, mo, d) => if validDate y mo d then some (isoFormat y mo d) else none
  | none => none

/-- The date-extraction loop of `parse_tasks` (lines 99-114): the first
pattern with a search hit decides the outcome — a valid parse yields the
ISO date, a failed parse raises `ValueError` (line 114), and no hit of any
pattern yields `None`. -/
def extract_date (t : List Char) : Except PyError (Option String) :=
  match findFirstDateMatch t with
  | none => .ok none
  | some (i, m) =>
    match validateDate i m with
    | some d => .ok (some d)
    | none => .error .valueError

/-! ## The task/hours tokenizer (`parse_tasks` lines 116-133) -/

/-- Group 1 of the task pattern (`workflow.py` line 119):
`(zero|one|...|ten|\d+(\.\d+)?+)`; the decimal part is possessive, so it
is consumed whenever present and never given back. -/
def matchQuantity (t : List Char) : Option (List Char × List Char) :=
  match wordAt (wordToNum.map (fun p => p.1)) t with
  | some (w, r) => some (w.data, r)
  | none =>
    match t with
    | c :: _ =>
      if c.isDigit then
        let ds := t.takeWhile Char.isDigit
        let r1 := t.dropWhile Char.isDigit
        match r1 with
        | '.' :: d :: r2 =>
          if d.isDigit then
            some (ds ++ '.' :: (d :: r2).takeWhile Char.isDigit,
                  (d :: r2).dropWhile Char.isDigit)
          else some (ds, r1)
        | _ => some (ds, r1)
      else none
    | [] => none

def isWordOrWs (c : Char) : Bool := isWordChar c || isWsChar c

def countLeadingWs (t : List Char) : ℕ := (t.takeWhile isWsChar).length

/-- `n, n-1, ..., 0`: the amounts a greedy `\s*` tries, largest first. -/
def downFrom : ℕ → List ℕ
  | 0 => [0]
  | n + 1 => (n + 1) :: downFrom n

/-- The optional connector `(?:of|on|for|doing)?`: the matching alternative
(at most one, since no connector is a prefix of another) before the empty
alternative. -/
def connectorCands (u : List Char) : List (List Char) :=
  (match wordAt ["of", "on", "for", "doing"] u with
   | some (_, r) => [r]
   | none => []) ++ [u]

/-- The `\s*(?:of|on|for|doing)?\s*([\w\s]+)` tail of the task pattern with
full backtracking in `re`'s order: the later choice points vary first. -/
def taskTail (u : List Char) : Option (List Char × List Char) :=
  firstSome (fun a =>
    firstSome (fun u2 =>
      firstSome (fun b =>
        let u3 := u2.drop b
        let tk := u3.takeWhile isWordOrWs
        if tk.isEmpty then none else some (tk, u3.drop tk.length))
        (downFrom (countLeadingWs u2)))
      (connectorCands (u.drop a)))
    (downFrom (countLeadingWs u))

/-- The whole task pattern at the current position; returns the quantity
text (group 1), the task text (group 3) and the remaining input.  The
optional `[s]?` after `hour` is tried greedily with fallback. -/
def matchTaskAt (t : List Char) : Option (List Char × List Char × List Char) :=
  match matchQuantity t with
  | none => none
  | some (q, r1) =>
    match litAt "hour".data (r1.dropWhile isWsChar) with
    | none => none
    | some r3 =>
      let cands : List (List Char) :=
        match r3 with
        | 's' :: r4 => [r4, r3]
        | _ => [r3]
      match firstSome (fun r5 => taskTail r5) cands with
      | some (tk, rem) => some (q, tk, rem)
      | none => none

/-- `re.findall` of the task pattern (`workflow.py` line 121): leftmost
non-overlapping matches, scanning left to right and resuming after each
match. -/
def findTasksAux : ℕ → List Char → List (List Char × List Char)
  | 0, _ => []
  | _ + 1, [] => []
  | fuel + 1, c :: rest =>
    match matchTaskAt (c :: rest) with
    | some (q, tk, rem) => (q, tk) :: findTasksAux fuel rem
    | none => findTasksAux fuel rest

/-- Value of a digit string with an optional single decimal point, as
Python `float()` on the strings group 1 can produce (exact here since we
compute in `ℚ`). -/
def strToQ (ds : List Char) : ℚ :=
  let ip := ds.takeWhile Char.isDigit
  match ds.dropWhile Char.isDigit with
  | '.' :: fs => (natOfDigits ip : ℚ) + (natOfDigits fs : ℚ) / ((10 ^ fs.length : ℕ) : ℚ)
  | _ => (natOfDigits ip : ℚ)

def lookupWord (w : List Char) : Option ℕ :=
  match wordToNum.filter (fun p => p.1.data == w) with
  | (_, v) :: _ => some v
  | [] => none

/-- `workflow.py` lines 124-129: a word-number group is looked up in
`word_to_num`, anything else goes through `float()`. -/
def quantityVal (q : List Char) : ℚ :=
  match lookupWord q with
  | some v => (v : ℚ)
  | none => strToQ q

/-- The tokenizer part of `parse_tasks` (lines 116-133): all matches of
the task pattern, in text order, with stripped task text. -/
def tokenizeTasks (t : List Char) : List RawTask :=
  (findTasksAux t.length t).map (fun p =>
    { task := ⟨stripChars p.2⟩, hours := quantityVal p.1 })

/-- The text every pattern of `parse_tasks` scans: the transcript is
lower-cased, passed through `parse_decimal_words`, and lower-cased again
(lines 86, 101 and 121). -/
def pipelineText (s : String) : List Char :=
  lowerChars (parse_decimal_words (strLower s)).data

/-- `parse_tasks` (`workflow.py` lines 77-133): number-word substitution,
then date extraction (whose `ValueError` aborts the whole extraction),
then task tokenization. -/
def parse_tasks (s : String) : Except PyError (List RawTask × Option String) :=
  let t := pipelineText s
  match extract_date t with
  | .error e => .error e
  | .ok d => .ok (tokenizeTasks t, d)

/-- Default `RawTask` used by `List.getD` in statements; never produced by
the embedded code. -/
def dummyTask : RawTask := { task := "", hours := 0 }

/-- Default `Mapped` used by `List.getD` in statements. -/
def dummyMapped : Mapped :=
  { date := none, chargecode_id := "", hours := 0, matched_with := "", score := 0 }

/-! ## Helper lemmas -/

theorem pyTrunc_eq_floor (q : ℚ) (h : 0 ≤ q) : pyTrunc q = ⌊q⌋ := by
  simp [pyTrunc, h]

theorem sum_map_mul_right_q (l : List ℚ) (c : ℚ) :
    (l.map (fun x => x * c)).sum = l.sum * c := by
  induction l with
  | nil => simp
  | cons x xs ih => simp [ih, add_mul]

theorem sum_map_div_q (l : List ℚ) (c : ℚ) :
    (l.map (fun x => x / c)).sum = l.sum / c := by
  induction l with
  | nil => simp
  | cons x xs ih => simp [ih, add_div]

theorem floor_sum_le_q (l : List ℚ) :
    (l.map (fun q => ((⌊q⌋ : ℤ) : ℚ))).sum ≤ l.sum := by
  induction l with
  | nil => simp
  | cons x xs ih =>
    simp only [List.map_cons, List.sum_cons]
    exact add_le_add (Int.floor_le x) ih

theorem sum_sub_len_le_floor_sum (l : List ℚ) :
    l.sum - l.length ≤ (l.map (fun q => ((⌊q⌋ : ℤ) : ℚ))).sum := by
  induction l with
  | nil => simp
  | cons x xs ih =>
    simp only [List.map_cons, List.sum_cons, List.length_cons]
    have h1 : x - 1 < (⌊x⌋ : ℚ) := Int.sub_one_lt_floor x
    push_cast
    push_cast at ih
    linarith

theorem sum_sub_len_lt_floor_sum (x : ℚ) (xs : List ℚ) :
    (x :: xs).sum - (x :: xs).length < ((x :: xs).map (fun q => ((⌊q⌋ : ℤ) : ℚ))).sum := by
  have h1 : x - 1 < (⌊x⌋ : ℚ) := Int.sub_one_lt_floor x
  have h2 := sum_sub_len_le_floor_sum xs
  simp only [List.map_cons, List.sum_cons, List.length_cons]
  push_cast
  push_cast at h2
  linarith

/-! ## Claims

The rational operations of Batteries are `@[irreducible]` to keep them
from unfolding accidentally; the concrete evaluations below need them to
reduce, so they are made semireducible for the remainder of the file. -/

deriving instance DecidableEq for Except

section ClaimSection

attribute [local semireducible] Rat.add Rat.mul Rat.inv Rat.sub

/-- Claim C1 (counterexample): for the resolved hours `[1, 1, 1]` (sum 3,
nonzero) the normalizer truncates each rescaled value to `2.66`, so the
normalized hours sum to `7.98`, which is not within `0.01` of `8.0`. -/
theorem C1_counterexample :
    scaleHours [1, 1, 1] = .ok [133 / 50, 133 / 50, 133 / 50] ∧
    ¬ |(([133 / 50, 133 / 50, 133 / 50] : List ℚ).sum) - 8| ≤ 1 / 100 := by
  exact ⟨rfl, by decide⟩

/-- Claim C1 (amended): for resolved entries with nonnegative hours whose
sum is nonzero, the normalizer succeeds and the normalized hours sum to at
most `8.0` and to more than `8.0 - 0.01·n`, where `n` is the number of
entries: each of the `n` truncations can lose up to `0.01`, so the sum is
within `0.01·n` of `8.0` (and not in general within `0.01`). -/
theorem C1_amended (hs : List ℚ) (hpos : ∀ h ∈ hs, 0 ≤ h) (hne : hs.sum ≠ 0) :
    ∃ out, scaleHours hs = .ok out ∧ out.sum ≤ 8 ∧
      8 - (hs.length : ℚ) / 100 < out.sum := by
  have hnil : hs ≠ [] := by
    intro hx
    exact hne (by simp [hx])
  have hlen : 0 < (hs.length : ℚ) := by
    have := List.length_pos.mpr hnil
    exact_mod_cast this
  by_cases h8 : hs.sum = 8
  · refine ⟨hs, by simp [scaleHours, h8], le_of_eq h8, ?_⟩
    rw [h8]
    have : 0 < (hs.length : ℚ) / 100 := div_pos hlen (by norm_num)
    linarith
  · have hS : 0 < hs.sum := lt_of_le_of_ne (List.sum_nonneg hpos) (Ne.symm hne)
    set S := hs.sum with hSdef
    refine ⟨hs.map (fun h => (pyTrunc (h * (8 / S) * 100) : ℚ) / 100), ?_, ?_, ?_⟩
    · simp only [scaleHours, if_neg h8, if_neg hne]
    · -- rewrite pyTrunc as floor, then bound the floor sum by the exact sum
      have hmap : hs.map (fun h => (pyTrunc (h * (8 / S) * 100) : ℚ) / 100) =
          ((hs.map (fun h => h * (8 / S * 100))).map (fun q => ((⌊q⌋ : ℤ) : ℚ))).map
            (fun x => x / 100) := by
        rw [List.map_map, List.map_map]
        apply List.map_congr_left
        intro a ha
        have h0 : 0 ≤ a * (8 / S) * 100 := by
          have ha0 := hpos a ha
          have : (0 : ℚ) ≤ 8 / S := le_of_lt (by positivity)
          nlinarith
        simp only [Function.comp]
        rw [pyTrunc_eq_floor _ h0, mul_assoc]
      rw [hmap, sum_map_div_q]
      have hsum800 : (hs.map (fun h => h * (8 / S * 100))).sum = 800 := by
        rw [sum_map_mul_right_q]
        field_simp
        ring
      have := floor_sum_le_q (hs.map (fun h => h * (8 / S * 100)))
      rw [hsum800] at this
      linarith
    · have hmap : hs.map (fun h => (pyTrunc (h * (8 / S) * 100) : ℚ) / 100) =
          ((hs.map (fun h => h * (8 / S * 100))).map (fun q => ((⌊q⌋ : ℤ) : ℚ))).map
            (fun x => x / 100) := by
        rw [List.map_map, List.map_map]
        apply List.map_congr_left
        intro a ha
        have h0 : 0 ≤ a * (8 / S) * 100 := by
          have ha0 := hpos a ha
          have : (0 : ℚ) ≤ 8 / S := le_of_lt (by positivity)
          nlinarith
        simp only [Function.comp]
        rw [pyTrunc_eq_floor _ h0, mul_assoc]
      rw [hmap, sum_map_div_q]
      cases hg : hs.map (fun h => h * (8 / S * 100)) with
      | nil => exact absurd (List.map_eq_nil_iff.mp hg) hnil
      | cons g gs =>
        have hstrict := sum_sub_len_lt_floor_sum g gs
        have hsum800 : (hs.map (fun h => h * (8 / S * 100))).sum = 800 := by
          rw [sum_map_mul_right_q]
          field_simp
          ring
        rw [hg] at hsum800
        have hlenN : (g :: gs).length = hs.length := by
          have := congrArg List.length hg
          simpa using this.symm
        have hlen2 : (((g :: gs).length : ℕ) : ℚ) = (hs.length : ℚ) := by
          exact_mod_cast congrArg Nat.cast hlenN
        rw [hsum800, hlen2] at hstrict
        linarith

/-- Claim C1 amended, witnessed at `[1, 1, 1]`: the normalizer succeeds
and the normalized sum lies in `(8 - 3·0.01, 8]`. -/
theorem C1_amended_witness :
    ∃ out, scaleHours [1, 1, 1] = .ok out ∧ out.sum ≤ 8 ∧
      8 - ((([1, 1, 1] : List ℚ).length : ℕ) : ℚ) / 100 < out.sum :=
  C1_amended [1, 1, 1] (by decide) (by decide)

/-- Claim C4: for resolved entries with nonnegative hours, if the sum is
exactly `8.0` the normalizer changes nothing, and otherwise (sum nonzero)
it replaces each entry's hours by
`floor(hours · (8 / sum) · 100) / 100` — truncation to two decimal
places, not rounding. -/
theorem C4_normalizer (hs : List ℚ) (hpos : ∀ h ∈ hs, 0 ≤ h) :
    (hs.sum = 8 → scaleHours hs = .ok hs) ∧
    (hs.sum ≠ 8 → hs.sum ≠ 0 →
      scaleHours hs = .ok (hs.map (fun x =>
        ((⌊x * (8 / hs.sum) * 100⌋ : ℤ) : ℚ) / 100))) := by
  constructor
  · intro h8
    simp [scaleHours, h8]
  · intro h8 h0
    have hS : 0 < hs.sum := lt_of_le_of_ne (List.sum_nonneg hpos) (Ne.symm h0)
    simp only [scaleHours, if_neg h8, if_neg h0, Except.ok.injEq]
    apply List.map_congr_left
    intro a ha
    have h0a : 0 ≤ a * (8 / hs.sum) * 100 := by
      have ha0 := hpos a ha
      have : (0 : ℚ) ≤ 8 / hs.sum := le_of_lt (by positivity)
      nlinarith
    rw [pyTrunc_eq_floor _ h0a]

/-- Claim C4, witnessed at `[2, 2]`: the sum is `4 ≠ 8`, and each entry
becomes `floor(2 · (8/4) · 100) / 100 = 4`. -/
theorem C4_normalizer_witness :
    scaleHours [2, 2] = .ok (([2, 2] : List ℚ).map (fun x =>
      ((⌊x * (8 / ([2, 2] : List ℚ).sum) * 100⌋ : ℤ) : ℚ) / 100)) :=
  (C4_normalizer [2, 2] (by decide)).2 (by decide) (by decide)

/-- Claim C5 (code behaviour): when the extracted hours sum to zero the
normalizer raises the uncaught arithmetic `ZeroDivisionError` of
`workflow.py` line 185 — not the typed `DegenerateInputError` the
specification requires; the same happens through the whole of
`map_to_chargecodes`. -/
theorem C5_code_behavior :
    scaleHours [0, 0] = .error PyError.zeroDivisionError ∧
    mapToChargecodes [{ task := "meetings", hours := 0 }] none scenario2Cat =
      .error PyError.zeroDivisionError ∧
    PyError.zeroDivisionError ≠ PyError.degenerateInputError := by
  exact ⟨rfl, rfl, by decide⟩

theorem extractOne_spec (f : String → ℚ) (l : List String) (hl : l ≠ []) :
    ∃ b s i, extractOne f l = some (b, s, i) ∧ s = f b ∧ i < l.length ∧
      l.getD i "" = b ∧ (∀ c ∈ l, f c ≤ s) ∧ ∀ j, j < i → f (l.getD j "") < s := by
  induction l with
  | nil => exact absurd rfl hl
  | cons c cs ih =>
    by_cases hcs : cs = []
    · subst hcs
      exact ⟨c, f c, 0, rfl, rfl, by simp, rfl, by simp,
        fun j hj => absurd hj (by omega)⟩
    · obtain ⟨b, s, i, he, hsb, hilen, hget, hmax, hmin⟩ := ih hcs
      by_cases hlt : f c < s
      · refine ⟨b, s, i + 1, ?_, hsb, ?_, ?_, ?_, ?_⟩
        · simp [extractOne, he, hlt]
        · simpa using hilen
        · simpa using hget
        · intro x hx
          rcases List.mem_cons.mp hx with hh | hh
          · exact hh ▸ le_of_lt hlt
          · exact hmax x hh
        · intro j hj
          cases j with
          | zero => simpa using hlt
          | succ k => simpa using hmin k (by omega)
      · refine ⟨c, f c, 0, ?_, rfl, by simp, rfl, ?_, ?_⟩
        · simp [extractOne, he, hlt]
        · intro x hx
          rcases List.mem_cons.mp hx with hh | hh
          · exact hh ▸ le_refl _
          · exact le_trans (hmax x hh) (not_lt.mp hlt)
        · intro j hj
          exact absurd hj (by omega)

theorem resolveAll_spec (cat : List RefEntry) (date : Option String) :
    ∀ tasks out, resolveAll cat date tasks = Except.ok out →
      out.length = tasks.length ∧
      ∀ i, i < tasks.length →
        resolveOne cat date (tasks.getD i dummyTask) = .ok (out.getD i dummyMapped) := by
  intro tasks
  induction tasks with
  | nil =>
    intro out h
    simp only [resolveAll, Except.ok.injEq] at h
    subst h
    exact ⟨rfl, fun i hi => absurd hi (by simp)⟩
  | cons t ts ih =>
    intro out h
    simp only [resolveAll] at h
    cases hro : resolveOne cat date t with
    | error e => rw [hro] at h; simp at h
    | ok m =>
      rw [hro] at h
      cases hra : resolveAll cat date ts with
      | error e => rw [hra] at h; simp at h
      | ok ms =>
        rw [hra] at h
        simp only [Except.ok.injEq] at h
        subst h
        obtain ⟨hlen, hcorr⟩ := ih ms hra
        refine ⟨by simp [hlen], ?_⟩
        intro i hi
        cases i with
        | zero => simpa using hro
        | succ k =>
          simp only [List.getD_cons_succ]
          exact hcorr k (by simpa using hi)

theorem list_getD_map {α β : Type} (f : α → β) (l : List α) (i : ℕ) (d : β) (d2 : α)
    (hi : i < l.length) :
    (l.map f).getD i d = f (l.getD i d2) := by
  induction l generalizing i with
  | nil => simp at hi
  | cons x xs ih =>
    cases i with
    | zero => simp
    | succ k =>
      simp only [List.map_cons, List.getD_cons_succ]
      exact ih k (by simpa using hi)

/-- Claim C2: for every task text and every nonempty catalog the resolver
selects, via `extractOne` with `tokenSetRatioQ`, the catalog description
with the maximum token-set similarity score, ties broken by the earliest
catalog position (every strictly earlier description scores strictly
less); this is a pure function of the task text and the catalog.  In
particular, resolving "data analysis" against the Scenario 2 catalog
returns billing id "WBS-100", whose description scores strictly higher
than the other row. -/
theorem C2_resolver (q : String) (cat : List RefEntry) (h : cat ≠ []) :
    (∃ b s i, extractOne (fun d => tokenSetRatioQ q d)
        (cat.map (fun r => r.description)) = some (b, s, i) ∧
      s = tokenSetRatioQ q b ∧ i < cat.length ∧
      (cat.map (fun r => r.description)).getD i "" = b ∧
      (∀ d ∈ cat.map (fun r => r.description), tokenSetRatioQ q d ≤ s) ∧
      (∀ j, j < i → tokenSetRatioQ q ((cat.map (fun r => r.description)).getD j "") < s)) ∧
    (resolveOne scenario2Cat none { task := "data analysis", hours := 2 }).map
        (fun m => m.chargecode_id) = .ok "WBS-100" ∧
    tokenSetRatioQ "data analysis" "Client Calls" <
      tokenSetRatioQ "data analysis" "Data Analysis" := by
  refine ⟨?_, rfl, by decide⟩
  have hl : cat.map (fun r => r.description) ≠ [] := by
    intro hx
    exact h (List.map_eq_nil_iff.mp hx)
  obtain ⟨b, s, i, he, hsb, hilen, hget, hmax, hmin⟩ :=
    extractOne_spec (fun d => tokenSetRatioQ q d) _ hl
  exact ⟨b, s, i, he, hsb, by simpa using hilen, hget, hmax, hmin⟩

/-- Claim C2, witnessed at task text "data analysis" and the Scenario 2
catalog. -/
theorem C2_resolver_witness :
    ∃ b s i, extractOne (fun d => tokenSetRatioQ "data analysis" d)
        (scenario2Cat.map (fun r => r.description)) = some (b, s, i) ∧
      s = tokenSetRatioQ "data analysis" b ∧ i < scenario2Cat.length ∧
      (scenario2Cat.map (fun r => r.description)).getD i "" = b ∧
      (∀ d ∈ scenario2Cat.map (fun r => r.description),
        tokenSetRatioQ "data analysis" d ≤ s) ∧
      (∀ j, j < i → tokenSetRatioQ "data analysis"
          ((scenario2Cat.map (fun r => r.description)).getD j "") < s) :=
  (C2_resolver "data analysis" scenario2Cat (by decide)).1

/-- Claim C3 (counterexample): on an empty catalog the resolver does fail,
but with the untyped `TypeError` from unpacking the `None` returned by
`process.extractOne` — not with the typed `EmptyCatalogError` the claim
names. -/
theorem C3_counterexample :
    mapToChargecodes [{ task := "data analysis", hours := 2 }] none [] =
      .error PyError.typeError ∧
    PyError.typeError ≠ PyError.emptyCatalogError := ⟨rfl, by decide⟩

/-- Claim C3 (amended): for every task mention the resolver returns
exactly one match whenever the catalog is nonempty; on a catalog with zero
entries it fails, but with an untyped `TypeError` (unpacking `None`), not
a typed `EmptyCatalogError`. -/
theorem C3_amended (cat : List RefEntry) (t : RawTask) (d : Option String) (h : cat ≠ []) :
    (∃ m, resolveOne cat d t = .ok m) ∧
    resolveOne [] d t = .error PyError.typeError ∧
    (∀ ts : List RawTask, ts ≠ [] → ∀ dd,
      mapToChargecodes ts dd [] = .error PyError.typeError) := by
  refine ⟨?_, rfl, ?_⟩
  · have hl : cat.map (fun r => r.description) ≠ [] := by
      intro hx
      exact h (List.map_eq_nil_iff.mp hx)
    obtain ⟨b, s, i, he, _⟩ :=
      extractOne_spec (fun x => tokenSetRatioQ (strStrip t.task) x) _ hl
    refine ⟨{ date := d, chargecode_id := (cat.getD i ⟨"", ""⟩).wbs, hours := t.hours,
              matched_with := b, score := s }, ?_⟩
    simp only [resolveOne, he]
  · intro ts hts dd
    cases ts with
    | nil => exact absurd rfl hts
    | cons a as => rfl

/-- Claim C3 amended, witnessed at the Scenario 2 catalog and the task
"data analysis". -/
theorem C3_amended_witness :
    ∃ m, resolveOne scenario2Cat none { task := "data analysis", hours := 2 } = .ok m :=
  (C3_amended scenario2Cat { task := "data analysis", hours := 2 } none (by decide)).1

/-- Claim C6 (code behaviour): the date extractor converts
"23/09/2025" to ISO "2025-09-23" and returns `None` when no pattern
matches, but on the dash form "23-09-2025" — which the first pattern
structurally matches and which is a valid calendar date that the claim
(and the code comment at `workflow.py` line 92) says is supported — it
raises `ValueError`, because `strptime` is called with the slash-only
format `"%d/%m/%Y"`. -/
theorem C6_code_behavior :
    extract_date (pipelineText "Today is 23-09-2025. I spent 2 hours on data analysis.") =
      .error PyError.valueError ∧
    extract_date (pipelineText
      "Today is 23/09/2025. I spent 2 hours on data analysis and 2 hours on calls.") =
      .ok (some "2025-09-23") ∧
    extract_date (pipelineText "No date in this transcript at all.") = .ok none :=
  ⟨rfl, rfl, rfl⟩

/-- Claim C7: whenever the first date pattern with a search hit produces a
matched substring that fails calendar validation, the extractor returns
the `ValueError` of `workflow.py` line 114 (the spec's `DateParseError`),
and the whole of `parse_tasks` aborts with that error — no later pattern
is tried and no task list is produced. -/
theorem C7_fail_fast (s : String) (i : ℕ) (m : List Char)
    (h1 : findFirstDateMatch (pipelineText s) = some (i, m))
    (h2 : validateDate i m = none) :
    extract_date (pipelineText s) = .error PyError.valueError ∧
    parse_tasks s = .error PyError.valueError := by
  have he : extract_date (pipelineText s) = .error PyError.valueError := by
    simp only [extract_date, h1, h2]
  exact ⟨he, by simp only [parse_tasks, he]⟩

/-- Claim C7, witnessed at a transcript containing "32/13/2024": the first
numeric pattern matches it, `strptime` rejects it, and the extraction
aborts. -/
theorem C7_fail_fast_witness :
    extract_date (pipelineText "as discussed on 32/13/2024 i rested") =
      .error PyError.valueError ∧
    parse_tasks "as discussed on 32/13/2024 i rested" = .error PyError.valueError :=
  C7_fail_fast "as discussed on 32/13/2024 i rested" 0 "32/13/2024".data rfl rfl

/-- Claim C8: the tokenizer yields the mentions of
"2 hours on A, 3 hours on B" in text order — task "a" before task "b" —
and for every successful run of `map_to_chargecodes` the resolved
sequence preserves the mention order: it has one entry per mention, and
the i-th output is the resolution of the i-th input mention (its matched
description is the `extractOne` result for that mention's task text, its
billing id comes from the matched catalog position, and its date is the
extracted date), through both resolution and normalization.  Both stages
are pure functions, so re-running reproduces the same order. -/
theorem C8_ordering (tasks : List RawTask) (date : Option String) (cat : List RefEntry)
    (mapped : List Mapped) (h : mapToChargecodes tasks date cat = .ok mapped) :
    parse_tasks "2 hours on A, 3 hours on B" =
      .ok ([{ task := "a", hours := 2 }, { task := "b", hours := 3 }], none) ∧
    mapped.length = tasks.length ∧
    ∀ i, i < tasks.length → ∃ s idx,
      extractOne (fun d => tokenSetRatioQ (strStrip (tasks.getD i dummyTask).task) d)
          (cat.map (fun r => r.description)) =
        some ((mapped.getD i dummyMapped).matched_with, s, idx) ∧
      (mapped.getD i dummyMapped).chargecode_id = (cat.getD idx ⟨"", ""⟩).wbs ∧
      (mapped.getD i dummyMapped).date = date := by
  refine ⟨rfl, ?_⟩
  cases hra : resolveAll cat date tasks with
  | error e =>
    simp only [mapToChargecodes, hra] at h
    exact absurd h (by simp)
  | ok ms =>
    obtain ⟨hlen, hcorr⟩ := resolveAll_spec cat date tasks ms hra
    have hres : ∀ i, i < tasks.length → ∃ s idx,
        extractOne (fun d => tokenSetRatioQ (strStrip (tasks.getD i dummyTask).task) d)
            (cat.map (fun r => r.description)) =
          some ((ms.getD i dummyMapped).matched_with, s, idx) ∧
        (ms.getD i dummyMapped).chargecode_id = (cat.getD idx ⟨"", ""⟩).wbs ∧
        (ms.getD i dummyMapped).date = date := by
      intro i hi
      have hro := hcorr i hi
      cases hE : extractOne
          (fun d => tokenSetRatioQ (strStrip (tasks.getD i dummyTask).task) d)
          (cat.map (fun r => r.description)) with
      | none =>
        simp only [resolveOne, hE] at hro
        exact absurd hro (by simp)
      | some trip =>
        obtain ⟨b, sc, idx⟩ := trip
        simp only [resolveOne, hE, Except.ok.injEq] at hro
        refine ⟨sc, idx, ?_, ?_, ?_⟩ <;> rw [← hro]
    simp only [mapToChargecodes, hra] at h
    by_cases h8 : (ms.map (fun m => m.hours)).sum = 8
    · rw [if_pos h8] at h
      simp only [Except.ok.injEq] at h
      subst h
      exact ⟨hlen, hres⟩
    · rw [if_neg h8] at h
      by_cases h0 : (ms.map (fun m => m.hours)).sum = 0
      · rw [if_pos h0] at h
        exact absurd h (by simp)
      · rw [if_neg h0] at h
        simp only [Except.ok.injEq] at h
        subst h
        refine ⟨by simpa using hlen, ?_⟩
        intro i hi
        obtain ⟨sc, idx, hE, hcc, hdate⟩ := hres i hi
        have hi2 : i < ms.length := by rw [hlen]; exact hi
        rw [list_getD_map _ ms i dummyMapped dummyMapped hi2]
        exact ⟨sc, idx, hE, hcc, hdate⟩

/-- Claim C8, witnessed at the mentions [("a", 2), ("b", 3)] resolved
against the Scenario 2 catalog: the run succeeds and has one output per
mention. -/
theorem C8_ordering_witness :
    ([{ date := none, chargecode_id := "WBS-200", hours := 16 / 5,
        matched_with := "Client Calls", score := 200 / 13 },
      { date := none, chargecode_id := "WBS-100", hours := 24 / 5,
        matched_with := "Data Analysis", score := 0 }] : List Mapped).length =
      ([{ task := "a", hours := 2 }, { task := "b", hours := 3 }] : List RawTask).length :=
  (C8_ordering [{ task := "a", hours := 2 }, { task := "b", hours := 3 }] none scenario2Cat
    [{ date := none, chargecode_id := "WBS-200", hours := 16 / 5,
       matched_with := "Client Calls", score := 200 / 13 },
     { date := none, chargecode_id := "WBS-100", hours := 24 / 5,
       matched_with := "Data Analysis", score := 0 }] rfl).2.1

/-- Claim C9: the lexical number parser replaces each recognized decimal
phrase with the numeric string of whole + d1/10 + d2/100:
"one point five hours" becomes "1.5 hours" and "point two five" becomes
"0.25" (so the outputs contain "1.5" and "0.25"), and for every
combination of an optional whole-number word value (0-10), a first digit
word value and an optional second digit word value (0-9), the replacement
string denotes exactly whole + d1/10 + d2/100. -/
theorem C9_decimal_words :
    parse_decimal_words "one point five hours" = "1.5 hours" ∧
    parse_decimal_words "point two five" = "0.25" ∧
    ∀ w : Option (Fin 11), ∀ d1 : Fin 10, ∀ d2 : Option (Fin 10),
      strToQ (replStr (w.map (fun x => x.val)) d1.val (d2.map (fun x => x.val))).data =
        replValQ (w.map (fun x => x.val)) d1.val (d2.map (fun x => x.val)) := by
  refine ⟨rfl, rfl, ?_⟩
  decide

/-- Claim C10 (code behaviour): a transcript with a date and zero
quantity-hour phrases tokenizes to the empty task list with the date
still extracted (no error from `parse_tasks`), but the pipeline then
aborts: `map_to_chargecodes` on the empty task list has hours sum 0 and
raises `ZeroDivisionError` instead of returning the empty entries list. -/
theorem C10_code_behavior :
    parse_tasks "Today is 23/09/2025. No billable work." = .ok ([], some "2025-09-23") ∧
    mapToChargecodes [] (some "2025-09-23") scenario2Cat =
      .error PyError.zeroDivisionError :=
  ⟨rfl, rfl⟩

end ClaimSection
